import Mathlib

/-!
Verification development for the math-game repository.

The game logic lives in the MathGame React component (startGame,
startCountdown, handleAnswerSubmit, generateQuestion) and in the
leaderboard storage helpers (sortAndTrim, readLeaderboard,
writeLeaderboard, addLeaderboardEntry).  The definitions below are a
shallow embedding of those functions: timestamps are Nat, JS numbers
used as answers are Int, `null` becomes `Option`, and the two mutable
refs that drive the countdown (`finalEndPendingRef`, `countdownRef`)
become explicit Booleans in an engine state threaded through the step
functions.
-/

namespace MathGame

/-- Question record, from the Question interface in src/types/game.ts.
The operator field '+' | '-' is embedded as a Boolean (true = '+'). -/
structure Question where
  id : Nat
  num1 : Nat
  num2 : Nat
  operatorIsAdd : Bool
  correctAnswer : Int
  questionText : String
deriving DecidableEq, Repr

/-- UserAnswer record, from src/types/game.ts: userAnswer, isCorrect and
answeredAt start as null and may later be filled in. -/
structure UserAnswer where
  questionId : Nat
  userAnswer : Option Int
  isCorrect : Option Bool
  answeredAt : Option Nat
deriving DecidableEq, Repr

/-- GameState record, from src/types/game.ts. -/
structure GameState where
  questionCounter : Nat
  answerCounter : Nat
  questions : List Question
  userAnswers : List UserAnswer
  score : Nat
  gameStartTime : Option Nat
  gameEndTime : Option Nat
  isGameActive : Bool
  canAnswerQuestionId : Option Nat
deriving DecidableEq, Repr

/-- Engine state: the React GameState together with the two refs of the
MathGame component that the countdown logic reads and writes:
finalEndPendingRef (grace period armed) and countdownRef (interval
registered, i.e. the periodic clock is running). -/
structure EngineState where
  game : GameState
  finalEndPending : Bool
  countdownRunning : Bool
deriving DecidableEq, Repr

def TOTAL_QUESTIONS : Nat := 30

/-- JS truthiness of a nullable number: null and 0 are falsy. -/
def jsTruthyNat : Option Nat → Bool
  | none => false
  | some n => !(n == 0)

/-- generateQuestion from the MathGame component: num1 and num2 are the
two Math.random draws in [1,10], isAdd the operator draw; for '-' the
operands are swapped when num1 < num2 so the result is non-negative. -/
def generateQuestion (questionNumber : Nat) (num1 num2 : Nat) (isAdd : Bool) : Question :=
  if isAdd then
    { id := questionNumber, num1 := num1, num2 := num2, operatorIsAdd := true,
      correctAnswer := (num1 : Int) + (num2 : Int),
      questionText := toString num1 ++ " + " ++ toString num2 ++ " = ?" }
  else
    let finalNum1 := if num1 < num2 then num2 else num1
    let finalNum2 := if num1 < num2 then num1 else num2
    { id := questionNumber, num1 := finalNum1, num2 := finalNum2, operatorIsAdd := false,
      correctAnswer := (finalNum1 : Int) - (finalNum2 : Int),
      questionText := toString finalNum1 ++ " - " ++ toString finalNum2 ++ " = ?" }

/-- Clash condition of the regeneration loop in startGame: the candidate
question repeats the previous question's text or answer. -/
def clash (q prev : Question) : Bool :=
  q.questionText == prev.questionText || q.correctAnswer == prev.correctAnswer

/-- One slot of the do/while regeneration loop in startGame.  `draws k`
is the question produced by the k-th call to generateQuestion for this
slot (k starts at 1, matching the post-increment `attempts` counter);
the loop re-draws while `attempts < 20` and the draw clashes with the
previous question.  The fuel argument only bounds the recursion; with
fuel 20 and attempts starting at 1 it never runs out before the
`attempts < 20` check stops the loop. -/
def pickAux (draws : Nat → Question) (prev : Question) : Nat → Nat → Question × Nat
  | 0, attempts => (draws attempts, attempts)
  | fuel + 1, attempts =>
    let q := draws attempts
    if attempts < 20 && clash q prev then pickAux draws prev fuel (attempts + 1)
    else (q, attempts)

/-- Accepted question (and number of draws made) for one slot: with no
previous question the loop body runs once and exits (the
`initialQuestions.length > 0` conjunct fails). -/
def pickQuestion (draws : Nat → Question) (prev : Option Question) : Question × Nat :=
  match prev with
  | none => (draws 1, 1)
  | some p => pickAux draws p 20 1

/-- Question list built by startGame: slots 1..30, each drawn by the
regeneration loop against the previously accepted question.
`draws i k` is the k-th generateQuestion result for slot i. -/
def buildQuestions (draws : Nat → Nat → Question) : List Question :=
  (List.range TOTAL_QUESTIONS).foldl
    (fun acc i => acc ++ [(pickQuestion (draws (i + 1)) acc.getLast?).1]) []

/-- Initial open answer records created by startGame, one per problem. -/
def initAnswers : List UserAnswer :=
  (List.range TOTAL_QUESTIONS).map
    (fun i => { questionId := i + 1, userAnswer := none, isCorrect := none, answeredAt := none })

/-- Engine state once the 1-second start delay of startGame has elapsed:
the first question is visible (questionCounter = 1) and the countdown
interval has been registered by startCountdown. -/
def startState (qs : List Question) (t0 : Nat) : EngineState :=
  { game := { questionCounter := 1, answerCounter := 0, questions := qs,
              userAnswers := initAnswers, score := 0, gameStartTime := some t0,
              gameEndTime := none, isGameActive := true, canAnswerQuestionId := none },
    finalEndPending := false, countdownRunning := true }

/-- The shouldStartAnswering condition of the period-boundary handler. -/
def shouldStart (newQC ac : Nat) : Bool :=
  (newQC == 6 && ac == 0) || (decide (6 < newQC) && decide (0 < ac))

/-- The skip pass of the period-boundary handler: stamp answeredAt on
every record whose questionId equals the currently eligible problem. -/
def markProcessed (answers : List UserAnswer) (targetId now : Nat) : List UserAnswer :=
  answers.map (fun answer =>
    if answer.questionId == targetId then { answer with answeredAt := some now } else answer)

/-- Body of the setGameState update run at a period boundary in
startCountdown (the non-grace path).  Returns the new GameState and
whether finalEndPendingRef was set by this pass (the answerCounter
reaching 30).  Mirrors the source exactly: the early return taken when
the answer counter reaches 30 keeps the previous questionCounter. -/
def boundaryGame (prevState : GameState) (now : Nat) : GameState × Bool :=
  if !prevState.isGameActive then (prevState, false)
  else
    let newQuestionCounter :=
      if prevState.questionCounter < TOTAL_QUESTIONS then prevState.questionCounter + 1
      else prevState.questionCounter
    if shouldStart newQuestionCounter prevState.answerCounter
        && decide (prevState.answerCounter < TOTAL_QUESTIONS) then
      let newUserAnswers :=
        if jsTruthyNat prevState.canAnswerQuestionId then
          markProcessed prevState.userAnswers (prevState.canAnswerQuestionId.getD 0) now
        else prevState.userAnswers
      let newAnswerCounter := prevState.answerCounter + 1
      if TOTAL_QUESTIONS ≤ newAnswerCounter then
        ({ prevState with
            userAnswers := newUserAnswers, answerCounter := TOTAL_QUESTIONS,
            canAnswerQuestionId := some TOTAL_QUESTIONS }, true)
      else
        ({ prevState with
            questionCounter := newQuestionCounter,
            answerCounter := newAnswerCounter, userAnswers := newUserAnswers,
            canAnswerQuestionId := some newAnswerCounter }, false)
    else
      ({ prevState with questionCounter := newQuestionCounter }, false)

/-- One period-boundary event of the countdown interval, at timestamp
`now`.  It only happens while the interval is registered.  If
finalEndPendingRef is set, the grace period has elapsed: the interval is
cleared and the game ends (this branch does not consult isGameActive).
Otherwise the setGameState pass of boundaryGame runs. -/
def boundaryStep (s : EngineState) (now : Nat) : EngineState :=
  if s.countdownRunning then
    if s.finalEndPending then
      { game := { s.game with isGameActive := false, gameEndTime := some now },
        finalEndPending := false, countdownRunning := false }
    else
      let r := boundaryGame s.game now
      { game := r.1, finalEndPending := r.2, countdownRunning := true }
  else s

/-- Raw input of a submission: whether currentAnswer.trim() is nonempty,
and the parseInt result (none when NaN). -/
structure RawInput where
  nonEmpty : Bool
  parsed : Option Int
deriving DecidableEq, Repr

inductive SubmitOutcome where
  | noTarget
  | alreadyAnswered
  | invalidInput
  | questionMissing
  | answered (isCorrect : Bool)
deriving DecidableEq, Repr

/-- handleAnswerSubmit from the MathGame component.  The submission
always targets canAnswerQuestionId; it bails out silently when no
problem is eligible or the input is blank, reports a duplicate when the
target's record already has a userAnswer, reports invalid input when
parseInt yields NaN, and otherwise resolves the record, bumps the score
when correct, and — when the target is problem 30 and the answer counter
has reached 30 — ends the game on the spot.  Note that it clears neither
finalEndPendingRef nor the countdown interval. -/
def handleAnswerSubmit (s : EngineState) (input : RawInput) (now : Nat) :
    SubmitOutcome × EngineState :=
  let gameState := s.game
  if !(jsTruthyNat gameState.canAnswerQuestionId) || !input.nonEmpty then (.noTarget, s)
  else
    let targetQuestionId := gameState.canAnswerQuestionId.getD 0
    let existingAnswer := gameState.userAnswers.find? (fun a => a.questionId == targetQuestionId)
    let duplicate := match existingAnswer with
      | some ea => ea.userAnswer.isSome
      | none => false
    if duplicate then (.alreadyAnswered, s)
    else
      match input.parsed with
      | none => (.invalidInput, s)
      | some answerValue =>
        match gameState.questions.find? (fun q => q.id == targetQuestionId) with
        | none => (.questionMissing, s)
        | some questionToAnswer =>
          let isCorrect := answerValue == questionToAnswer.correctAnswer
          let newUserAnswers := gameState.userAnswers.map (fun answer =>
            if answer.questionId == targetQuestionId then
              { answer with
                  userAnswer := some answerValue, isCorrect := some isCorrect,
                  answeredAt := some now }
            else answer)
          let g1 := { gameState with
                        userAnswers := newUserAnswers,
                        score := if isCorrect then gameState.score + 1 else gameState.score }
          let g2 :=
            if targetQuestionId == TOTAL_QUESTIONS
                && decide (TOTAL_QUESTIONS ≤ gameState.answerCounter) then
              { g1 with isGameActive := false, gameEndTime := some now }
            else g1
          (.answered isCorrect, { s with game := g2 })

/-- Repeated period boundaries: the n-th boundary fires at timestamp n. -/
def runBoundaries (s : EngineState) : Nat → EngineState
  | 0 => s
  | n + 1 => boundaryStep (runBoundaries s n) (n + 1)

/-- Concrete question list used by the counterexample runs: 30 copies of
the 1 + 1 question, as generateQuestion would produce them with fixed
random draws. -/
def sampleQuestions : List Question :=
  (List.range TOTAL_QUESTIONS).map (fun i => generateQuestion (i + 1) 1 1 true)

/-- State of the concrete no-submission run after 34 period boundaries:
the answer counter has just reached 30 and the final grace is armed. -/
def graceState : EngineState := runBoundaries (startState sampleQuestions 0) 34

/-- State of the concrete no-submission run after the 35th boundary, the
one that fires the armed grace and ends the game. -/
def timeoutFinalState : EngineState := boundaryStep graceState 35

/-- Grace-period submission of problem 30 (raw input parsing to 2, the
correct answer) at timestamp 100. -/
def graceSubmitState : EngineState :=
  (handleAnswerSubmit graceState { nonEmpty := true, parsed := some 2 } 100).2

/-- State of the concrete run after 5 boundaries: problem 1 has just
become eligible. -/
def eligibleOneState : EngineState := runBoundaries (startState sampleQuestions 0) 5

/-- State after submitting the correct answer 2 for problem 1 at
timestamp 50 from eligibleOneState. -/
def answeredOneState : EngineState :=
  (handleAnswerSubmit eligibleOneState { nonEmpty := true, parsed := some 2 } 50).2

/-- LeaderboardEntry from hooks/useLeaderboard.ts: totalTime is in
seconds, createdAt an ISO string. -/
structure LeaderboardEntry where
  name : String
  score : Int
  totalTime : Int
  createdAt : String
deriving DecidableEq, Repr

/-- Strict "comes before" order of the JS sort comparator
(a, b) => b.score - a.score, ties a.totalTime - b.totalTime:
a strictly precedes b when the comparator is negative. -/
def entryLT (a b : LeaderboardEntry) : Bool :=
  decide (b.score < a.score) || (a.score == b.score && decide (a.totalTime < b.totalTime))

/-- Non-strict order on entries: a may legitimately appear before b in
the sorted leaderboard. -/
def entryLE (a b : LeaderboardEntry) : Prop := entryLT b a = false

/-- Stable insertion of an entry into a sorted list: the new entry goes
after every entry it does not strictly precede, which is exactly where
JS's stable Array.prototype.sort places a later-indexed element. -/
def insertEntry (a : LeaderboardEntry) : List LeaderboardEntry → List LeaderboardEntry
  | [] => [a]
  | b :: bs => if entryLT a b then a :: b :: bs else b :: insertEntry a bs

/-- The JS stable sort of [...arr].sort(comparator), embedded as a
left-to-right stable insertion sort: a stable sort's output is uniquely
determined by the comparator, so any stable sort is a faithful model. -/
def sortEntries (l : List LeaderboardEntry) : List LeaderboardEntry :=
  l.foldl (fun acc a => insertEntry a acc) []

/-- sortAndTrim from hooks/useLeaderboard.ts: sort by score descending,
ties by totalTime ascending, keep the first 100. -/
def sortAndTrim (arr : List LeaderboardEntry) : List LeaderboardEntry :=
  (sortEntries arr).take 100

/-- readLeaderboard: parse the stored list and sortAndTrim it.  The
store is modelled as the parsed list held in localStorage. -/
def readLeaderboard (store : List LeaderboardEntry) : List LeaderboardEntry :=
  sortAndTrim store

/-- writeLeaderboard: the sorted/trimmed list is both persisted (it
becomes the new store) and returned. -/
def writeLeaderboard (entries : List LeaderboardEntry) : List LeaderboardEntry :=
  sortAndTrim entries

/-- addLeaderboardEntry: read, push the new entry, write back.  The
result is both the returned list and the new store contents. -/
def addLeaderboardEntry (store : List LeaderboardEntry) (entry : LeaderboardEntry) :
    List LeaderboardEntry :=
  writeLeaderboard (readLeaderboard store ++ [entry])

theorem entryLT_asymm {a b : LeaderboardEntry} (h : entryLT a b = true) :
    entryLT b a = false := by
  simp only [entryLT, Bool.or_eq_true, Bool.and_eq_true, decide_eq_true_eq, beq_iff_eq,
    Bool.or_eq_false_iff, Bool.and_eq_false_iff, decide_eq_false_iff_not, not_lt,
    beq_eq_false_iff_ne, ne_eq] at h ⊢
  omega

theorem entryLT_trans {a b c : LeaderboardEntry} (hab : entryLT a b = true)
    (hbc : entryLT b c = true) : entryLT a c = true := by
  simp only [entryLT, Bool.or_eq_true, Bool.and_eq_true, decide_eq_true_eq,
    beq_iff_eq] at hab hbc ⊢
  omega

theorem mem_insertEntry {y x : LeaderboardEntry} {l : List LeaderboardEntry} :
    y ∈ insertEntry x l ↔ y = x ∨ y ∈ l := by
  induction l with
  | nil => simp [insertEntry]
  | cons b bs ih =>
    cases hx : entryLT x b with
    | true =>
      simp only [insertEntry, hx, if_true, List.mem_cons]
    | false =>
      simp only [insertEntry, hx, Bool.false_eq_true, if_false, List.mem_cons, ih]
      tauto

theorem insertEntry_pairwise {x : LeaderboardEntry} {l : List LeaderboardEntry}
    (h : l.Pairwise entryLE) : (insertEntry x l).Pairwise entryLE := by
  induction l with
  | nil => simp [insertEntry, List.Pairwise, entryLE]
  | cons b bs ih =>
    rcases List.pairwise_cons.mp h with ⟨hb, hbs⟩
    cases hx : entryLT x b with
    | true =>
      simp only [insertEntry, hx, if_true]
      refine List.pairwise_cons.mpr ⟨?_, h⟩
      intro y hy
      rcases List.mem_cons.mp hy with rfl | hy'
      · exact entryLT_asymm hx
      · have hyb : entryLT y b = false := hb y hy'
        show entryLT y x = false
        cases hyx : entryLT y x with
        | false => rfl
        | true => exact absurd (entryLT_trans hyx hx) (by simp [hyb])
    | false =>
      simp only [insertEntry, hx, Bool.false_eq_true, if_false]
      refine List.pairwise_cons.mpr ⟨?_, ih hbs⟩
      intro y hy
      rcases mem_insertEntry.mp hy with rfl | hy'
      · exact hx
      · exact hb y hy'

theorem sortEntries_sorted (l : List LeaderboardEntry) :
    (sortEntries l).Pairwise entryLE := by
  have main : ∀ (l acc : List LeaderboardEntry), acc.Pairwise entryLE →
      (l.foldl (fun acc a => insertEntry a acc) acc).Pairwise entryLE := by
    intro l
    induction l with
    | nil => intro acc h; simpa using h
    | cons a as ih =>
      intro acc h
      exact ih (insertEntry a acc) (insertEntry_pairwise h)
  exact main l [] (by simp)

theorem sortEntries_append_single (l : List LeaderboardEntry) (e : LeaderboardEntry) :
    sortEntries (l ++ [e]) = insertEntry e (sortEntries l) := by
  simp [sortEntries, List.foldl_append]

theorem insertEntry_of_forall {e : LeaderboardEntry} {l : List LeaderboardEntry}
    (h : ∀ a ∈ l, entryLT e a = false) : insertEntry e l = l ++ [e] := by
  induction l with
  | nil => simp [insertEntry]
  | cons b bs ih =>
    have hb : entryLT e b = false := h b (by simp)
    simp only [insertEntry, hb, Bool.false_eq_true, if_false, List.cons_append,
      List.cons.injEq, true_and]
    exact ih (fun a ha => h a (by simp [ha]))

theorem sortEntries_of_pairwise {l : List LeaderboardEntry}
    (h : l.Pairwise entryLE) : sortEntries l = l := by
  induction l using List.reverseRecOn with
  | nil => rfl
  | append_singleton l e ih =>
    rcases List.pairwise_append.mp h with ⟨hl, _, hcross⟩
    rw [sortEntries_append_single, ih hl]
    exact insertEntry_of_forall (fun a ha => hcross a ha e (by simp))

theorem take_insertEntry (e : LeaderboardEntry) :
    ∀ (n : Nat) (l : List LeaderboardEntry),
      (insertEntry e (l.take n)).take n = (insertEntry e l).take n := by
  intro n l
  induction l generalizing n with
  | nil => simp
  | cons b bs ih =>
    match n with
    | 0 => simp
    | m + 1 =>
      simp only [List.take_succ_cons, insertEntry]
      cases hx : entryLT e b with
      | true =>
        simp only [hx, if_true, List.take_succ_cons, List.cons.injEq, true_and]
        match m with
        | 0 => simp
        | k + 1 =>
          simp only [List.take_succ_cons, List.take_take, List.cons.injEq, true_and]
          congr 1
          omega
      | false =>
        simp only [hx, Bool.false_eq_true, if_false, List.take_succ_cons,
          List.cons.injEq, true_and]
        exact ih m

theorem sortAndTrim_pairwise (l : List LeaderboardEntry) :
    (sortAndTrim l).Pairwise entryLE :=
  List.Pairwise.sublist (List.take_sublist 100 (sortEntries l)) (sortEntries_sorted l)

/-- Core algebraic fact behind the leaderboard contract: pushing onto
the already sorted/trimmed visible list and re-sorting/trimming agrees
with sorting/trimming the raw store plus the new entry. -/
theorem addLeaderboardEntry_eq (store : List LeaderboardEntry) (e : LeaderboardEntry) :
    addLeaderboardEntry store e = sortAndTrim (store ++ [e]) := by
  have hs : sortEntries (List.take 100 (sortEntries store)) = List.take 100 (sortEntries store) :=
    sortEntries_of_pairwise (sortAndTrim_pairwise store)
  unfold addLeaderboardEntry writeLeaderboard readLeaderboard sortAndTrim
  rw [sortEntries_append_single, sortEntries_append_single, hs]
  exact take_insertEntry e 100 (sortEntries store)

theorem readLeaderboard_addLeaderboardEntry (store : List LeaderboardEntry)
    (e : LeaderboardEntry) :
    readLeaderboard (addLeaderboardEntry store e) = addLeaderboardEntry store e := by
  have hs : sortEntries (List.take 100 (sortEntries (store ++ [e])))
      = List.take 100 (sortEntries (store ++ [e])) :=
    sortEntries_of_pairwise (sortAndTrim_pairwise (store ++ [e]))
  rw [addLeaderboardEntry_eq]
  unfold readLeaderboard sortAndTrim
  rw [hs, List.take_take]
  simp

/-- Transitions of the running system: a period boundary of the
countdown interval, or a user submission. -/
inductive Step : EngineState → EngineState → Prop where
  | boundary (s : EngineState) (now : Nat) : Step s (boundaryStep s now)
  | submit (s : EngineState) (input : RawInput) (now : Nat) :
      Step s (handleAnswerSubmit s input now).2

/-- States reachable from the post-start-delay state of a game on the
question list qs started at time t0. -/
inductive Reachable (qs : List Question) (t0 : Nat) : EngineState → Prop where
  | init : Reachable qs t0 (startState qs t0)
  | step {s s' : EngineState} : Reachable qs t0 s → Step s s' → Reachable qs t0 s'

theorem handleAnswerSubmit_frame (s : EngineState) (input : RawInput) (now : Nat) :
    (handleAnswerSubmit s input now).2.game.questionCounter = s.game.questionCounter
    ∧ (handleAnswerSubmit s input now).2.game.answerCounter = s.game.answerCounter
    ∧ (handleAnswerSubmit s input now).2.game.canAnswerQuestionId = s.game.canAnswerQuestionId
    ∧ (handleAnswerSubmit s input now).2.game.questions = s.game.questions
    ∧ (handleAnswerSubmit s input now).2.game.gameStartTime = s.game.gameStartTime
    ∧ (handleAnswerSubmit s input now).2.finalEndPending = s.finalEndPending
    ∧ (handleAnswerSubmit s input now).2.countdownRunning = s.countdownRunning := by
  unfold handleAnswerSubmit
  dsimp only
  split
  · exact ⟨rfl, rfl, rfl, rfl, rfl, rfl, rfl⟩
  · split
    · exact ⟨rfl, rfl, rfl, rfl, rfl, rfl, rfl⟩
    · split
      · exact ⟨rfl, rfl, rfl, rfl, rfl, rfl, rfl⟩
      · split
        · exact ⟨rfl, rfl, rfl, rfl, rfl, rfl, rfl⟩
        · split <;> exact ⟨rfl, rfl, rfl, rfl, rfl, rfl, rfl⟩

theorem boundaryGame_frame (g : GameState) (now : Nat) :
    (boundaryGame g now).1.score = g.score
    ∧ (boundaryGame g now).1.questions = g.questions
    ∧ (boundaryGame g now).1.gameStartTime = g.gameStartTime
    ∧ (boundaryGame g now).1.isGameActive = g.isGameActive
    ∧ (boundaryGame g now).1.gameEndTime = g.gameEndTime := by
  unfold boundaryGame
  dsimp only
  repeat' split
  all_goals exact ⟨rfl, rfl, rfl, rfl, rfl⟩

theorem boundaryStep_frame (s : EngineState) (now : Nat) :
    (boundaryStep s now).game.score = s.game.score
    ∧ (boundaryStep s now).game.questions = s.game.questions
    ∧ (boundaryStep s now).game.gameStartTime = s.game.gameStartTime
    ∧ (s.finalEndPending = false →
        (boundaryStep s now).game.isGameActive = s.game.isGameActive
        ∧ (boundaryStep s now).game.gameEndTime = s.game.gameEndTime)
    ∧ (s.finalEndPending = true →
        (boundaryStep s now).game.questionCounter = s.game.questionCounter
        ∧ (boundaryStep s now).game.answerCounter = s.game.answerCounter
        ∧ (boundaryStep s now).game.userAnswers = s.game.userAnswers
        ∧ (boundaryStep s now).game.canAnswerQuestionId = s.game.canAnswerQuestionId) := by
  unfold boundaryStep
  cases hr : s.countdownRunning with
  | false =>
    exact ⟨rfl, rfl, rfl, fun _ => ⟨rfl, rfl⟩, fun _ => ⟨rfl, rfl, rfl, rfl⟩⟩
  | true =>
    cases hf : s.finalEndPending with
    | true =>
      exact ⟨rfl, rfl, rfl, fun h => Bool.noConfusion h, fun _ => ⟨rfl, rfl, rfl, rfl⟩⟩
    | false =>
      rcases boundaryGame_frame s.game now with ⟨h1, h2, h3, h4, h5⟩
      exact ⟨h1, h2, h3, fun _ => ⟨h4, h5⟩, fun h => Bool.noConfusion h⟩

/-- Inductive invariant tying the two counters and the eligibility
window together: before eligibility opens the answer counter is 0, at
most five questions are revealed and no problem is answerable; once it
opens, the reveal counter tracks the answer counter with the constant
lag of 5 (capped at 30) and the eligible problem id equals the answer
counter. -/
def counterInvG (g : GameState) : Prop :=
  (g.answerCounter = 0 ∧ g.questionCounter ≤ 5 ∧ g.canAnswerQuestionId = none)
  ∨ (1 ≤ g.answerCounter ∧ g.answerCounter ≤ 30
      ∧ g.questionCounter = min (g.answerCounter + 5) 30
      ∧ g.canAnswerQuestionId = some g.answerCounter)

def counterInv (s : EngineState) : Prop := counterInvG s.game

theorem counterInv_start (qs : List Question) (t0 : Nat) : counterInv (startState qs t0) := by
  unfold counterInv counterInvG startState
  left
  refine ⟨rfl, ?_, rfl⟩
  show 1 ≤ 5
  omega

theorem boundaryGame_counterInv (g : GameState) (now : Nat) (h : counterInvG g) :
    counterInvG (boundaryGame g now).1 := by
  unfold counterInvG at h ⊢
  simp only [boundaryGame]
  split_ifs with hact hq hcond hdup h30 hcond2 h302 <;>
    rcases h with ⟨ha, hqle, hc⟩ | ⟨ha1, ha2, hqe, hc⟩ <;>
    simp_all [shouldStart, jsTruthyNat, TOTAL_QUESTIONS, Option.some.injEq] <;>
    omega

theorem boundaryStep_counterInv (s : EngineState) (now : Nat) (h : counterInv s) :
    counterInv (boundaryStep s now) := by
  unfold boundaryStep
  cases hr : s.countdownRunning with
  | false => exact h
  | true =>
    cases hf : s.finalEndPending with
    | true => exact h
    | false => exact boundaryGame_counterInv s.game now h

theorem handleAnswerSubmit_counterInv (s : EngineState) (input : RawInput) (now : Nat)
    (h : counterInv s) : counterInv (handleAnswerSubmit s input now).2 := by
  rcases handleAnswerSubmit_frame s input now with ⟨h1, h2, h3, _⟩
  unfold counterInv counterInvG at h ⊢
  rw [h1, h2, h3]
  exact h

theorem reachable_counterInv {qs : List Question} {t0 : Nat} {s : EngineState}
    (h : Reachable qs t0 s) : counterInv s := by
  induction h with
  | init => exact counterInv_start qs t0
  | step _ hstep ih =>
    cases hstep with
    | boundary now => exact boundaryStep_counterInv _ now ih
    | submit input now => exact handleAnswerSubmit_counterInv _ input now ih

theorem counterInv_bounds {s : EngineState} (h : counterInv s) :
    s.game.questionCounter ≤ 30 ∧ s.game.answerCounter ≤ 30
    ∧ s.game.answerCounter ≤ s.game.questionCounter := by
  rcases h with ⟨ha, hq, _⟩ | ⟨ha1, ha2, hq, _⟩ <;> omega

/-- The two counters never decrease across a period boundary,
whatever the state. -/
theorem boundaryStep_mono (s : EngineState) (now : Nat) :
    s.game.questionCounter ≤ (boundaryStep s now).game.questionCounter
    ∧ s.game.answerCounter ≤ (boundaryStep s now).game.answerCounter := by
  unfold boundaryStep
  cases hr : s.countdownRunning with
  | false => exact ⟨Nat.le_refl _, Nat.le_refl _⟩
  | true =>
    cases hf : s.finalEndPending with
    | true => exact ⟨Nat.le_refl _, Nat.le_refl _⟩
    | false =>
      show s.game.questionCounter ≤ (boundaryGame s.game now).1.questionCounter
        ∧ s.game.answerCounter ≤ (boundaryGame s.game now).1.answerCounter
      simp only [boundaryGame]
      split_ifs <;> simp_all [TOTAL_QUESTIONS] <;> omega

theorem boundaryGame_canAnswer_open (g : GameState) (now : Nat)
    (hact : g.isGameActive = true) (hinv : counterInvG g)
    (hc : g.canAnswerQuestionId = none) :
    ((boundaryGame g now).1.canAnswerQuestionId = some 1 ↔ g.questionCounter = 5) := by
  rcases hinv with ⟨ha, hq, _⟩ | ⟨_, _, _, hsome⟩
  · simp only [boundaryGame]
    split_ifs with h1 h2 h3 h4 h5 h6 h7 <;>
      simp_all [shouldStart, jsTruthyNat, TOTAL_QUESTIONS, Option.some.injEq] <;>
      omega
  · rw [hc] at hsome
    exact absurd hsome (by simp)

theorem boundaryGame_canAnswer_step (g : GameState) (now : Nat) (k : Nat)
    (hact : g.isGameActive = true) (hinv : counterInvG g)
    (hc : g.canAnswerQuestionId = some k) (hk : k < 30) :
    (boundaryGame g now).1.canAnswerQuestionId = some (k + 1) := by
  rcases hinv with ⟨_, _, hnone⟩ | ⟨ha1, ha2, hq, hsome⟩
  · rw [hc] at hnone
    exact absurd hnone (by simp)
  · have hke : k = g.answerCounter := by
      rw [hc] at hsome
      exact (Option.some.injEq _ _).mp hsome
    subst hke
    simp only [boundaryGame]
    split_ifs with h1 h2 h3 h4 h5 h6 h7 <;>
      simp_all [shouldStart, jsTruthyNat, TOTAL_QUESTIONS, Option.some.injEq] <;>
      omega

theorem boundaryGame_canAnswer_frozen (g : GameState) (now : Nat)
    (hinv : counterInvG g) (hc : g.canAnswerQuestionId = some 30) :
    (boundaryGame g now).1.canAnswerQuestionId = some 30 := by
  rcases hinv with ⟨_, _, hnone⟩ | ⟨ha1, ha2, hq, hsome⟩
  · rw [hc] at hnone
    exact absurd hnone (by simp)
  · have hke : g.answerCounter = 30 := by
      rw [hc] at hsome
      exact ((Option.some.injEq _ _).mp hsome).symm
    simp only [boundaryGame]
    split_ifs with h1 h2 h3 h4 h5 h6 h7 <;>
      simp_all [shouldStart, jsTruthyNat, TOTAL_QUESTIONS, Option.some.injEq] <;>
      omega

theorem pickAux_spec (draws : Nat → Question) (p : Question) :
    ∀ (fuel attempts : Nat), 1 ≤ attempts → attempts ≤ 20 → attempts + fuel = 21 →
      attempts ≤ (pickAux draws p fuel attempts).2
      ∧ (pickAux draws p fuel attempts).2 ≤ 20
      ∧ (pickAux draws p fuel attempts).1 = draws (pickAux draws p fuel attempts).2
      ∧ (∀ j, attempts ≤ j → j < (pickAux draws p fuel attempts).2 → clash (draws j) p = true)
      ∧ ((pickAux draws p fuel attempts).2 < 20 → clash (pickAux draws p fuel attempts).1 p = false)
      ∧ (clash (pickAux draws p fuel attempts).1 p = true → (pickAux draws p fuel attempts).2 = 20) := by
  intro fuel
  induction fuel with
  | zero =>
    intro attempts h1 h20 hsum
    omega
  | succ f ih =>
    intro attempts h1 h20 hsum
    have hunf : pickAux draws p (f + 1) attempts
        = if decide (attempts < 20) && clash (draws attempts) p then
            pickAux draws p f (attempts + 1)
          else (draws attempts, attempts) := rfl
    cases hcl : (decide (attempts < 20) && clash (draws attempts) p) with
    | true =>
      rcases Bool.and_eq_true_iff.mp hcl with ⟨hlt, hcls⟩
      have hlt' : attempts < 20 := of_decide_eq_true hlt
      have hrec := ih (attempts + 1) (by omega) (by omega) (by omega)
      rcases hrec with ⟨r1, r2, r3, r4, r5, r6⟩
      rw [hunf, hcl]
      simp only [if_true]
      refine ⟨by omega, r2, r3, ?_, r5, r6⟩
      intro j hj1 hj2
      rcases Nat.eq_or_lt_of_le hj1 with rfl | hj1'
      · exact hcls
      · exact r4 j (by omega) hj2
    | false =>
      have hred : (if (false = true) then pickAux draws p f (attempts + 1)
          else (draws attempts, attempts)) = (draws attempts, attempts) := rfl
      rw [hunf, hcl, hred]
      refine ⟨Nat.le_refl _, h20, rfl, ?_, ?_, ?_⟩
      · intro j hj1 hj2
        omega
      · intro _
        cases hc2 : clash (draws attempts) p with
        | false => rfl
        | true =>
          exfalso
          rcases Bool.and_eq_false_iff.mp hcl with hbad | hbad
          · rename_i hlt20
            simp only [decide_eq_false_iff_not] at hbad
            omega
          · rw [hc2] at hbad
            exact Bool.noConfusion hbad
      · intro hc2
        rcases Bool.and_eq_false_iff.mp hcl with hbad | hbad
        · simp only [decide_eq_false_iff_not] at hbad
          omega
        · rw [hc2] at hbad
          exact Bool.noConfusion hbad

/-- Projection of an answer record to the fields a period boundary must
never alter: identity, submitted value and correctness verdict. -/
def recordCore (a : UserAnswer) : Nat × Option Int × Option Bool :=
  (a.questionId, a.userAnswer, a.isCorrect)

theorem markProcessed_recordCore (answers : List UserAnswer) (t now : Nat) :
    (markProcessed answers t now).map recordCore = answers.map recordCore := by
  unfold markProcessed
  rw [List.map_map]
  apply List.map_congr_left
  intro a _
  simp only [Function.comp_apply]
  by_cases h : (a.questionId == t) = true
  · rw [if_pos h]
    rfl
  · rw [if_neg h]

theorem boundaryGame_recordCore (g : GameState) (now : Nat) :
    (boundaryGame g now).1.userAnswers.map recordCore = g.userAnswers.map recordCore := by
  simp only [boundaryGame]
  split_ifs <;> simp [markProcessed_recordCore]

theorem boundaryStep_recordCore (s : EngineState) (now : Nat) :
    (boundaryStep s now).game.userAnswers.map recordCore
      = s.game.userAnswers.map recordCore := by
  unfold boundaryStep
  cases hr : s.countdownRunning with
  | false => rfl
  | true =>
    cases hf : s.finalEndPending with
    | true => rfl
    | false => exact boundaryGame_recordCore s.game now

theorem handleAnswerSubmit_noTarget (s : EngineState) (input : RawInput) (now : Nat)
    (h : jsTruthyNat s.game.canAnswerQuestionId = false ∨ input.nonEmpty = false) :
    handleAnswerSubmit s input now = (.noTarget, s) := by
  have hc : (!jsTruthyNat s.game.canAnswerQuestionId || !input.nonEmpty) = true := by
    rcases h with h | h <;> simp [h]
  simp only [handleAnswerSubmit, hc, if_true]

theorem handleAnswerSubmit_already (s : EngineState) (input : RawInput) (now : Nat)
    (t : Nat) (ea : UserAnswer)
    (hc : s.game.canAnswerQuestionId = some t)
    (hfind : s.game.userAnswers.find? (fun a => a.questionId == t) = some ea)
    (hdup : ea.userAnswer.isSome = true) :
    (handleAnswerSubmit s input now).2 = s := by
  by_cases hng : (!jsTruthyNat s.game.canAnswerQuestionId || !input.nonEmpty) = true
  · simp only [handleAnswerSubmit, hng, if_true]
  · have hng' : (!jsTruthyNat s.game.canAnswerQuestionId || !input.nonEmpty) = false :=
      Bool.eq_false_iff.mpr hng
    rw [hc] at hng'
    simp only [handleAnswerSubmit, hng', Bool.false_eq_true, if_false, hc,
      Option.getD_some, hfind, hdup, if_true]

theorem handleAnswerSubmit_alreadyAnswered_out (s : EngineState) (input : RawInput) (now : Nat)
    (t : Nat) (ea : UserAnswer)
    (hc : s.game.canAnswerQuestionId = some t) (ht : t ≠ 0) (hne : input.nonEmpty = true)
    (hfind : s.game.userAnswers.find? (fun a => a.questionId == t) = some ea)
    (hdup : ea.userAnswer.isSome = true) :
    handleAnswerSubmit s input now = (.alreadyAnswered, s) := by
  have hng' : (!jsTruthyNat (some t) || !input.nonEmpty) = false := by
    simp [hne, jsTruthyNat, ht]
  simp only [handleAnswerSubmit, hc, hng', Bool.false_eq_true, if_false,
    Option.getD_some, hfind, hdup, if_true]

theorem handleAnswerSubmit_invalid (s : EngineState) (input : RawInput) (now : Nat)
    (t : Nat)
    (hc : s.game.canAnswerQuestionId = some t) (ht : t ≠ 0) (hne : input.nonEmpty = true)
    (hopen : ∀ ea, s.game.userAnswers.find? (fun a => a.questionId == t) = some ea →
      ea.userAnswer = none)
    (hparse : input.parsed = none) :
    handleAnswerSubmit s input now = (.invalidInput, s) := by
  have hng' : (!jsTruthyNat (some t) || !input.nonEmpty) = false := by
    simp [hne, jsTruthyNat, ht]
  have hdup : (match s.game.userAnswers.find? (fun a => a.questionId == t) with
      | some ea => ea.userAnswer.isSome
      | none => false) = false := by
    cases hfind : s.game.userAnswers.find? (fun a => a.questionId == t) with
    | none => rfl
    | some ea => simp [hopen ea hfind]
  simp only [handleAnswerSubmit, hc, hng', Bool.false_eq_true, if_false,
    Option.getD_some, hdup, hparse]

theorem handleAnswerSubmit_success (s : EngineState) (input : RawInput) (now : Nat)
    (t : Nat) (ea : UserAnswer) (v : Int) (q : Question)
    (hc : s.game.canAnswerQuestionId = some t) (ht : t ≠ 0) (hne : input.nonEmpty = true)
    (hfind : s.game.userAnswers.find? (fun a => a.questionId == t) = some ea)
    (hopen : ea.userAnswer = none)
    (hparse : input.parsed = some v)
    (hq : s.game.questions.find? (fun qq => qq.id == t) = some q) :
    (handleAnswerSubmit s input now).1 = .answered (v == q.correctAnswer)
    ∧ (handleAnswerSubmit s input now).2.game.score
        = (if (v == q.correctAnswer) = true then s.game.score + 1 else s.game.score)
    ∧ (handleAnswerSubmit s input now).2.game.userAnswers
        = s.game.userAnswers.map (fun a =>
            if a.questionId == t then
              { a with
                  userAnswer := some v, isCorrect := some (v == q.correctAnswer),
                  answeredAt := some now }
            else a)
    ∧ (handleAnswerSubmit s input now).2.game.isGameActive
        = (if (t == TOTAL_QUESTIONS && decide (TOTAL_QUESTIONS ≤ s.game.answerCounter)) = true
           then false else s.game.isGameActive)
    ∧ (handleAnswerSubmit s input now).2.game.gameEndTime
        = (if (t == TOTAL_QUESTIONS && decide (TOTAL_QUESTIONS ≤ s.game.answerCounter)) = true
           then some now else s.game.gameEndTime) := by
  have hng' : (!jsTruthyNat (some t) || !input.nonEmpty) = false := by
    simp [hne, jsTruthyNat, ht]
  have hdup : ea.userAnswer.isSome = false := by simp [hopen]
  simp only [handleAnswerSubmit, hc, hng', Bool.false_eq_true, if_false,
    Option.getD_some, hfind, hdup, hparse, hq]
  by_cases hend : (t == TOTAL_QUESTIONS && decide (TOTAL_QUESTIONS ≤ s.game.answerCounter)) = true <;>
    simp [hend]

theorem handleAnswerSubmit_localized (s : EngineState) (input : RawInput) (now : Nat) :
    ∀ a ∈ (handleAnswerSubmit s input now).2.game.userAnswers,
      a ∈ s.game.userAnswers ∨ a.questionId = s.game.canAnswerQuestionId.getD 0 := by
  intro a ha
  revert ha
  unfold handleAnswerSubmit
  dsimp only
  split
  · intro ha
    exact Or.inl ha
  · split
    · intro ha
      exact Or.inl ha
    · split
      · intro ha
        exact Or.inl ha
      · split
        · intro ha
          exact Or.inl ha
        · split <;>
          · intro ha
            rcases List.mem_map.mp ha with ⟨pre, hpre, rfl⟩
            by_cases hid : (pre.questionId == s.game.canAnswerQuestionId.getD 0) = true
            · right
              rw [if_pos hid]
              simpa using hid
            · left
              rw [if_neg hid]
              exact hpre

theorem boundaryStep_game_eq {s : EngineState} (now : Nat)
    (hr : s.countdownRunning = true) (hf : s.finalEndPending = false) :
    (boundaryStep s now).game = (boundaryGame s.game now).1 := by
  unfold boundaryStep
  rw [hr, hf]
  rfl

theorem reachable_runBoundaries {qs : List Question} {t0 : Nat} {s : EngineState}
    (h : Reachable qs t0 s) (n : Nat) : Reachable qs t0 (runBoundaries s n) := by
  induction n with
  | zero => exact h
  | succ k ih => exact Reachable.step ih (Step.boundary _ (k + 1))

/-- Leaderboard entries of the concrete scenario in the spec. -/
def entryA : LeaderboardEntry := { name := "A", score := 10, totalTime := 20, createdAt := "" }

def entryB : LeaderboardEntry := { name := "B", score := 10, totalTime := 15, createdAt := "" }

def entryC : LeaderboardEntry := { name := "C", score := 9, totalTime := 5, createdAt := "" }

set_option maxRecDepth 10000 in
/-- C1, counterexample: in the concrete no-submission run the 35th
boundary (graceState has answerCounter 30 and the final grace armed)
does terminate the session — isGameActive becomes false and the end
time is stamped — but problem 30's answer record is left completely
untouched: submittedValue, isCorrect and resolvedAt are all still
absent, so it is not resolved as skipped, refuting the claim. -/
theorem c1_counterexample :
    graceState.game.answerCounter = 30
    ∧ graceState.finalEndPending = true
    ∧ timeoutFinalState.game.isGameActive = false
    ∧ timeoutFinalState.game.gameEndTime = some 35
    ∧ timeoutFinalState.game.userAnswers.find? (fun a => a.questionId == 30)
        = some { questionId := 30, userAnswer := none, isCorrect := none,
                 answeredAt := none } := by
  decide

/-- C1 (amended): when the final grace is armed and the countdown still
runs, the next period boundary terminates the session — isGameActive
becomes false, the end time is set to the boundary time and the
countdown stops — but it leaves every answer record, including problem
30's, exactly as it was: problem 30's record stays open rather than
being resolved as skipped. -/
theorem c1_graceTimeout (s : EngineState) (now : Nat)
    (hr : s.countdownRunning = true) (hf : s.finalEndPending = true) :
    (boundaryStep s now).game.isGameActive = false
    ∧ (boundaryStep s now).game.gameEndTime = some now
    ∧ (boundaryStep s now).countdownRunning = false
    ∧ (boundaryStep s now).game.userAnswers = s.game.userAnswers := by
  unfold boundaryStep
  rw [hr, hf]
  exact ⟨rfl, rfl, rfl, rfl⟩

set_option maxRecDepth 10000 in
/-- C1 witness: the amended theorem applied to the concrete grace state
reached after 34 boundaries. -/
theorem c1_graceTimeout_witness :
    (boundaryStep graceState 35).game.isGameActive = false
    ∧ (boundaryStep graceState 35).game.gameEndTime = some 35
    ∧ (boundaryStep graceState 35).countdownRunning = false
    ∧ (boundaryStep graceState 35).game.userAnswers = graceState.game.userAnswers :=
  c1_graceTimeout graceState 35 (by decide) (by decide)

set_option maxRecDepth 10000 in
/-- C2, failing run: in the grace state a submission of problem 30 at
time 100 succeeds and finalizes the session (isGameActive false,
gameEndTime 100), but the submission clears neither finalEndPendingRef
nor the countdown interval, so the next boundary at time 200 still runs
the automatic-timeout branch and overwrites gameEndTime with 200 — the
final endedAt is not the one produced by the submission, contradicting
the claim (and the code's own intent of ending the game at submission
time). -/
theorem c2_submission_then_timeout :
    graceState.game.answerCounter = 30
    ∧ graceState.finalEndPending = true
    ∧ (handleAnswerSubmit graceState { nonEmpty := true, parsed := some 2 } 100).1
        = .answered true
    ∧ graceSubmitState.game.isGameActive = false
    ∧ graceSubmitState.game.gameEndTime = some 100
    ∧ graceSubmitState.finalEndPending = true
    ∧ graceSubmitState.countdownRunning = true
    ∧ (boundaryStep graceSubmitState 200).game.gameEndTime = some 200
    ∧ (boundaryStep graceSubmitState 200).game.isGameActive = false := by
  decide

set_option maxRecDepth 10000 in
/-- C3, counterexample: after problem 1 is submitted (resolved at time
50 with a correct answer), the very next period boundary at time 60
stamps the boundary time onto the same — already resolved — record,
overwriting its resolvedAt from 50 to 60.  The boundary pass has no
"still open" guard, refuting the claim. -/
theorem c3_counterexample :
    answeredOneState.game.canAnswerQuestionId = some 1
    ∧ answeredOneState.game.userAnswers.find? (fun a => a.questionId == 1)
        = some { questionId := 1, userAnswer := some 2, isCorrect := some true,
                 answeredAt := some 50 }
    ∧ (boundaryStep answeredOneState 60).game.userAnswers.find? (fun a => a.questionId == 1)
        = some { questionId := 1, userAnswer := some 2, isCorrect := some true,
                 answeredAt := some 60 } := by
  decide

/-- C3 (amended): a period boundary never changes any record's identity,
submitted value or correctness verdict (it may only restamp the eligible
record's resolvedAt — even of a record already resolved by a
submission); and a submission for a problem whose record already carries
a submitted value is rejected with no state change.  Hence submittedValue
and isCorrect transition from open to resolved at most once, while
resolvedAt alone can be rewritten by the boundary following a
submission. -/
theorem c3_resolution :
    (∀ (s : EngineState) (now : Nat),
        (boundaryStep s now).game.userAnswers.map recordCore
          = s.game.userAnswers.map recordCore)
    ∧ (∀ (s : EngineState) (input : RawInput) (now : Nat) (t : Nat) (ea : UserAnswer),
        s.game.canAnswerQuestionId = some t →
        s.game.userAnswers.find? (fun a => a.questionId == t) = some ea →
        ea.userAnswer.isSome = true →
        (handleAnswerSubmit s input now).2 = s) :=
  ⟨boundaryStep_recordCore,
   fun s input now t ea hc hfind hdup =>
     handleAnswerSubmit_already s input now t ea hc hfind hdup⟩

set_option maxRecDepth 10000 in
/-- C3 witness: the no-change half applied to the concrete state where
problem 1 is already resolved by a submission. -/
theorem c3_resolution_witness :
    (handleAnswerSubmit answeredOneState { nonEmpty := true, parsed := some 9 } 70).2
      = answeredOneState :=
  c3_resolution.2 answeredOneState { nonEmpty := true, parsed := some 9 } 70 1
    { questionId := 1, userAnswer := some 2, isCorrect := some true, answeredAt := some 50 }
    (by decide) (by decide) (by decide)

/-- C10: every period boundary leaves score, the questions array and
gameStartTime unchanged; while the final grace is not armed it also
leaves isGameActive and gameEndTime unchanged (only the counters, the
records and the eligibility pointer may move); on the terminating
boundary (grace armed) it conversely leaves the counters, the records
and the eligibility pointer unchanged and only flips isGameActive and
sets gameEndTime. -/
theorem c10_boundary_frame (s : EngineState) (now : Nat) :
    (boundaryStep s now).game.score = s.game.score
    ∧ (boundaryStep s now).game.questions = s.game.questions
    ∧ (boundaryStep s now).game.gameStartTime = s.game.gameStartTime
    ∧ (s.finalEndPending = false →
        (boundaryStep s now).game.isGameActive = s.game.isGameActive
        ∧ (boundaryStep s now).game.gameEndTime = s.game.gameEndTime)
    ∧ (s.finalEndPending = true →
        (boundaryStep s now).game.questionCounter = s.game.questionCounter
        ∧ (boundaryStep s now).game.answerCounter = s.game.answerCounter
        ∧ (boundaryStep s now).game.userAnswers = s.game.userAnswers
        ∧ (boundaryStep s now).game.canAnswerQuestionId = s.game.canAnswerQuestionId) :=
  boundaryStep_frame s now

set_option maxRecDepth 10000 in
/-- C10 witness: the frame condition at the concrete start state (grace
not armed) and at the concrete grace state (terminating boundary). -/
theorem c10_boundary_frame_witness :
    (boundaryStep (startState sampleQuestions 0) 1).game.score
        = (startState sampleQuestions 0).game.score
    ∧ (boundaryStep (startState sampleQuestions 0) 1).game.isGameActive
        = (startState sampleQuestions 0).game.isGameActive
    ∧ (boundaryStep graceState 35).game.answerCounter = graceState.game.answerCounter
    ∧ (boundaryStep graceState 35).game.userAnswers = graceState.game.userAnswers :=
  ⟨(c10_boundary_frame (startState sampleQuestions 0) 1).1,
   ((c10_boundary_frame (startState sampleQuestions 0) 1).2.2.2.1 rfl).1,
   ((c10_boundary_frame graceState 35).2.2.2.2 (by decide)).2.1,
   ((c10_boundary_frame graceState 35).2.2.2.2 (by decide)).2.2.1⟩

/-- C4: in every reachable state the reveal counter (questionCounter)
and answerCounter are at most 30 with answerCounter ≤ questionCounter,
and across every transition — period boundary or submission — both
counters are non-decreasing and stay within 30. -/
theorem c4_counters (qs : List Question) (t0 : Nat) (s : EngineState)
    (h : Reachable qs t0 s) :
    s.game.questionCounter ≤ 30 ∧ s.game.answerCounter ≤ 30
    ∧ s.game.answerCounter ≤ s.game.questionCounter
    ∧ (∀ now, s.game.questionCounter ≤ (boundaryStep s now).game.questionCounter
        ∧ s.game.answerCounter ≤ (boundaryStep s now).game.answerCounter
        ∧ (boundaryStep s now).game.questionCounter ≤ 30
        ∧ (boundaryStep s now).game.answerCounter ≤ 30)
    ∧ (∀ (input : RawInput) (now : Nat),
        (handleAnswerSubmit s input now).2.game.questionCounter = s.game.questionCounter
        ∧ (handleAnswerSubmit s input now).2.game.answerCounter = s.game.answerCounter) := by
  have hinv := reachable_counterInv h
  rcases counterInv_bounds hinv with ⟨h1, h2, h3⟩
  refine ⟨h1, h2, h3, ?_, ?_⟩
  · intro now
    rcases boundaryStep_mono s now with ⟨m1, m2⟩
    rcases counterInv_bounds (boundaryStep_counterInv s now hinv) with ⟨b1, b2, _⟩
    exact ⟨m1, m2, b1, b2⟩
  · intro input now
    rcases handleAnswerSubmit_frame s input now with ⟨f1, f2, _⟩
    exact ⟨f1, f2⟩

/-- C4 witness: the counter bounds and a concrete boundary transition at
the reachable start state. -/
theorem c4_counters_witness :
    (startState sampleQuestions 0).game.questionCounter ≤ 30
    ∧ (startState sampleQuestions 0).game.answerCounter ≤ 30
    ∧ (startState sampleQuestions 0).game.answerCounter
        ≤ (startState sampleQuestions 0).game.questionCounter
    ∧ (startState sampleQuestions 0).game.questionCounter
        ≤ (boundaryStep (startState sampleQuestions 0) 1).game.questionCounter :=
  have h := c4_counters sampleQuestions 0 (startState sampleQuestions 0) Reachable.init
  ⟨h.1, h.2.1, h.2.2.1, (h.2.2.2.1 1).1⟩

/-- C5: in every reachable state the eligibility pointer is empty
exactly while answerCounter is 0 and otherwise equals answerCounter
(hence takes the values 1,2,… in lock step, one increment per
boundary); from a running state it first becomes some 1 exactly on the
boundary that raises the reveal counter from 5 to 6; from a running
state with pointer k < 30 the next boundary moves it to k+1; and once
the pointer reaches 30 every further boundary leaves it frozen at 30. -/
theorem c5_eligibility (qs : List Question) (t0 : Nat) (s : EngineState)
    (h : Reachable qs t0 s) :
    (s.game.canAnswerQuestionId = none ↔ s.game.answerCounter = 0)
    ∧ (∀ k, s.game.canAnswerQuestionId = some k →
        1 ≤ k ∧ k ≤ 30 ∧ k = s.game.answerCounter)
    ∧ (∀ now, s.game.isGameActive = true → s.countdownRunning = true →
        s.finalEndPending = false → s.game.canAnswerQuestionId = none →
        ((boundaryStep s now).game.canAnswerQuestionId = some 1
          ↔ s.game.questionCounter = 5))
    ∧ (∀ now k, s.game.isGameActive = true → s.countdownRunning = true →
        s.finalEndPending = false → s.game.canAnswerQuestionId = some k → k < 30 →
        (boundaryStep s now).game.canAnswerQuestionId = some (k + 1))
    ∧ (∀ now, s.game.canAnswerQuestionId = some 30 →
        (boundaryStep s now).game.canAnswerQuestionId = some 30) := by
  have hinv : counterInvG s.game := reachable_counterInv h
  refine ⟨?_, ?_, ?_, ?_, ?_⟩
  · rcases hinv with ⟨ha, _, hcn⟩ | ⟨ha1, _, _, hcs⟩
    · exact ⟨fun _ => ha, fun _ => hcn⟩
    · constructor
      · intro hx
        rw [hcs] at hx
        exact absurd hx (by simp)
      · intro hx
        omega
  · intro k hk
    rcases hinv with ⟨_, _, hcn⟩ | ⟨ha1, ha2, _, hcs⟩
    · rw [hcn] at hk
      exact absurd hk (by simp)
    · rw [hcs] at hk
      have : s.game.answerCounter = k := (Option.some.injEq _ _).mp hk
      omega
  · intro now hact hr hf hcn
    rw [boundaryStep_game_eq now hr hf]
    exact boundaryGame_canAnswer_open s.game now hact hinv hcn
  · intro now k hact hr hf hcs hk
    rw [boundaryStep_game_eq now hr hf]
    exact boundaryGame_canAnswer_step s.game now k hact hinv hcs hk
  · intro now hc30
    cases hr : s.countdownRunning with
    | false =>
      unfold boundaryStep
      rw [hr]
      exact hc30
    | true =>
      cases hf : s.finalEndPending with
      | true =>
        unfold boundaryStep
        rw [hr, hf]
        exact hc30
      | false =>
        rw [boundaryStep_game_eq now hr hf]
        exact boundaryGame_canAnswer_frozen s.game now hinv hc30

set_option maxRecDepth 10000 in
/-- C5 witness: at the start state the pointer is empty iff the answer
counter is 0, and the boundary out of the start state (reveal counter
1) does not open the window; at the concrete grace state the pointer is
frozen at 30 across a further boundary. -/
theorem c5_eligibility_witness :
    ((startState sampleQuestions 0).game.canAnswerQuestionId = none
      ↔ (startState sampleQuestions 0).game.answerCounter = 0)
    ∧ ((boundaryStep (startState sampleQuestions 0) 1).game.canAnswerQuestionId = some 1
        ↔ (startState sampleQuestions 0).game.questionCounter = 5)
    ∧ (boundaryStep graceState 35).game.canAnswerQuestionId = some 30 :=
  ⟨(c5_eligibility sampleQuestions 0 (startState sampleQuestions 0) Reachable.init).1,
   (c5_eligibility sampleQuestions 0 (startState sampleQuestions 0) Reachable.init).2.2.1
     1 rfl rfl rfl rfl,
   (c5_eligibility sampleQuestions 0 graceState
      (reachable_runBoundaries Reachable.init 34)).2.2.2.2 35 (by decide)⟩

/-- C6: a submission for the eligible problem with a still-open record
and input parsing to v resolves the record with isCorrect = (v equals
the problem's correctAnswer) and resolvedAt = now, increments the score
by exactly 1 when equal and leaves it unchanged otherwise; and the
boundary pass that skips an expired problem never changes the score. -/
theorem c6_scoring (s : EngineState) (input : RawInput) (now : Nat)
    (t : Nat) (ea : UserAnswer) (v : Int) (q : Question)
    (hc : s.game.canAnswerQuestionId = some t) (ht : t ≠ 0) (hne : input.nonEmpty = true)
    (hfind : s.game.userAnswers.find? (fun a => a.questionId == t) = some ea)
    (hopen : ea.userAnswer = none)
    (hparse : input.parsed = some v)
    (hq : s.game.questions.find? (fun qq => qq.id == t) = some q) :
    (handleAnswerSubmit s input now).1 = .answered (v == q.correctAnswer)
    ∧ (handleAnswerSubmit s input now).2.game.score
        = (if (v == q.correctAnswer) = true then s.game.score + 1 else s.game.score)
    ∧ (handleAnswerSubmit s input now).2.game.userAnswers
        = s.game.userAnswers.map (fun a =>
            if a.questionId == t then
              { a with
                  userAnswer := some v, isCorrect := some (v == q.correctAnswer),
                  answeredAt := some now }
            else a)
    ∧ (∀ (s2 : EngineState) (now2 : Nat), (boundaryStep s2 now2).game.score = s2.game.score) := by
  rcases handleAnswerSubmit_success s input now t ea v q hc ht hne hfind hopen hparse hq
    with ⟨o, sc, ua, _, _⟩
  exact ⟨o, sc, ua, fun s2 now2 => (boundaryStep_frame s2 now2).1⟩

set_option maxRecDepth 10000 in
/-- C6 witness: submitting the correct answer 2 for eligible problem 1
of the concrete run yields isCorrect = true and score 1. -/
theorem c6_scoring_witness :
    (handleAnswerSubmit eligibleOneState { nonEmpty := true, parsed := some 2 } 50).1
      = .answered true
    ∧ (handleAnswerSubmit eligibleOneState { nonEmpty := true, parsed := some 2 } 50).2.game.score
      = 1 := by
  have h := c6_scoring eligibleOneState { nonEmpty := true, parsed := some 2 } 50 1
    { questionId := 1, userAnswer := none, isCorrect := none, answeredAt := none }
    2 (generateQuestion 1 1 1 true)
    (by decide) (by decide) rfl (by decide) rfl rfl (by decide)
  constructor
  · rw [h.1]
    decide
  · rw [h.2.1]
    decide

/-- C7: each error case of the submission handler changes nothing.
With no eligible problem (or blank input) the submission is silently
ignored; a submission for the eligible problem whose record already
carries a submitted value is rejected as a duplicate with the state
returned unchanged; a non-parsing input is rejected as invalid with the
state returned unchanged; and in all cases the handler can only ever
touch the record of the currently eligible problem, so a submission
aimed at any other problem never alters a record. -/
theorem c7_errors :
    (∀ (s : EngineState) (input : RawInput) (now : Nat),
        jsTruthyNat s.game.canAnswerQuestionId = false ∨ input.nonEmpty = false →
        handleAnswerSubmit s input now = (.noTarget, s))
    ∧ (∀ (s : EngineState) (input : RawInput) (now : Nat) (t : Nat) (ea : UserAnswer),
        s.game.canAnswerQuestionId = some t → t ≠ 0 → input.nonEmpty = true →
        s.game.userAnswers.find? (fun a => a.questionId == t) = some ea →
        ea.userAnswer.isSome = true →
        handleAnswerSubmit s input now = (.alreadyAnswered, s))
    ∧ (∀ (s : EngineState) (input : RawInput) (now : Nat) (t : Nat),
        s.game.canAnswerQuestionId = some t → t ≠ 0 → input.nonEmpty = true →
        (∀ ea, s.game.userAnswers.find? (fun a => a.questionId == t) = some ea →
          ea.userAnswer = none) →
        input.parsed = none →
        handleAnswerSubmit s input now = (.invalidInput, s))
    ∧ (∀ (s : EngineState) (input : RawInput) (now : Nat),
        ∀ a ∈ (handleAnswerSubmit s input now).2.game.userAnswers,
          a ∈ s.game.userAnswers ∨ a.questionId = s.game.canAnswerQuestionId.getD 0) :=
  ⟨handleAnswerSubmit_noTarget, handleAnswerSubmit_alreadyAnswered_out,
   handleAnswerSubmit_invalid, handleAnswerSubmit_localized⟩

set_option maxRecDepth 10000 in
/-- C7 witness: the three rejection paths at concrete states — no
eligible problem at the start state, duplicate submission for the
resolved problem 1, and a non-parsing input for the open problem 1. -/
theorem c7_errors_witness :
    handleAnswerSubmit (startState sampleQuestions 0) { nonEmpty := true, parsed := some 1 } 10
      = (.noTarget, startState sampleQuestions 0)
    ∧ handleAnswerSubmit answeredOneState { nonEmpty := true, parsed := some 3 } 70
      = (.alreadyAnswered, answeredOneState)
    ∧ handleAnswerSubmit eligibleOneState { nonEmpty := true, parsed := none } 55
      = (.invalidInput, eligibleOneState) :=
  ⟨c7_errors.1 (startState sampleQuestions 0) { nonEmpty := true, parsed := some 1 } 10
     (Or.inl (by decide)),
   c7_errors.2.1 answeredOneState { nonEmpty := true, parsed := some 3 } 70 1
     { questionId := 1, userAnswer := some 2, isCorrect := some true, answeredAt := some 50 }
     (by decide) (by decide) rfl (by decide) (by decide),
   c7_errors.2.2.1 eligibleOneState { nonEmpty := true, parsed := none } 55 1
     (by decide) (by decide) rfl
     (by
       intro ea hea
       have hfind : eligibleOneState.game.userAnswers.find? (fun a => a.questionId == 1)
           = some ⟨1, none, none, none⟩ := by decide
       rw [hfind] at hea
       have hea' : ea = (⟨1, none, none, none⟩ : UserAnswer) :=
         ((Option.some.injEq _ _).mp hea).symm
       rw [hea'])
     rfl⟩

/-- C8: for every stored list, add followed by readAll is exactly the
stable sort of the store plus the new entry — score descending, ties by
totalTime ascending — truncated to 100 entries (so the visible list is
always sorted and at most 100 long, even for oversized or tied stores);
and the concrete scenario: adding A(10,20), B(10,15), C(9,5) to an
empty store yields [B, A, C]. -/
theorem c8_leaderboard :
    (∀ (store : List LeaderboardEntry) (e : LeaderboardEntry),
        addLeaderboardEntry store e = sortAndTrim (store ++ [e])
        ∧ readLeaderboard (addLeaderboardEntry store e) = addLeaderboardEntry store e
        ∧ (addLeaderboardEntry store e).length ≤ 100
        ∧ (addLeaderboardEntry store e).Pairwise entryLE)
    ∧ addLeaderboardEntry (addLeaderboardEntry (addLeaderboardEntry [] entryA) entryB) entryC
        = [entryB, entryA, entryC] := by
  constructor
  · intro store e
    refine ⟨addLeaderboardEntry_eq store e, readLeaderboard_addLeaderboardEntry store e,
      ?_, ?_⟩
    · rw [addLeaderboardEntry_eq]
      unfold sortAndTrim
      simpa using List.length_take_le 100 (sortEntries (store ++ [e]))
    · rw [addLeaderboardEntry_eq]
      exact sortAndTrim_pairwise (store ++ [e])
  · decide

/-- C9: for one slot of the generator with a previous question, the
regeneration loop makes between 1 and 20 draws, every draw before the
accepted one clashed with the previous question (same text or same
answer), a draw accepted before the 20th does not clash, and if the
accepted draw still clashes then it is exactly the 20th draw and all 20
draws clashed — the tolerated best-effort case; the first slot (no
previous question) accepts the first draw without any clash check. -/
theorem c9_generator (draws : Nat → Question) (p : Question) :
    1 ≤ (pickQuestion draws (some p)).2
    ∧ (pickQuestion draws (some p)).2 ≤ 20
    ∧ (pickQuestion draws (some p)).1 = draws (pickQuestion draws (some p)).2
    ∧ (∀ j, 1 ≤ j → j < (pickQuestion draws (some p)).2 → clash (draws j) p = true)
    ∧ ((pickQuestion draws (some p)).2 < 20 →
        clash (pickQuestion draws (some p)).1 p = false)
    ∧ (clash (pickQuestion draws (some p)).1 p = true →
        (pickQuestion draws (some p)).2 = 20
        ∧ ∀ j, 1 ≤ j → j ≤ 20 → clash (draws j) p = true)
    ∧ pickQuestion draws none = (draws 1, 1) := by
  have h := pickAux_spec draws p 20 1 (by omega) (by omega) (by omega)
  rcases h with ⟨r1, r2, r3, r4, r5, r6⟩
  have hpq : pickQuestion draws (some p) = pickAux draws p 20 1 := rfl
  rw [hpq]
  refine ⟨r1, r2, r3, r4, r5, ?_, rfl⟩
  intro hcl
  have h20 := r6 hcl
  refine ⟨h20, ?_⟩
  intro j hj1 hj2
  rcases Nat.lt_or_ge j 20 with hj | hj
  · exact r4 j hj1 (by omega)
  · have hj20 : j = 20 := by omega
    subst hj20
    have hlast : clash (draws (pickAux draws p 20 1).2) p = true := by
      rw [← r3]
      exact hcl
    rw [h20] at hlast
    exact hlast

/-- C9 witness: with a constant draw stream that always clashes with
the previous question, the loop accepts the 20th draw, and all draws
clashed. -/
theorem c9_generator_witness :
    clash (pickQuestion (fun _ => generateQuestion 2 1 1 true)
        (some (generateQuestion 1 1 1 true))).1 (generateQuestion 1 1 1 true) = true
    ∧ (pickQuestion (fun _ => generateQuestion 2 1 1 true)
        (some (generateQuestion 1 1 1 true))).2 = 20 :=
  ⟨by decide,
   ((c9_generator (fun _ => generateQuestion 2 1 1 true)
       (generateQuestion 1 1 1 true)).2.2.2.2.2.1 (by decide)).1⟩

end MathGame
